import Mathlib

/-!
Verification development for the SignTrace compliance and bias engines
(src/lib/complianceEngine.ts and src/lib/biasDetection.ts).

Strings are modelled as lists of characters; the JavaScript operations
used by the engine (toLowerCase, substring(0, n), includes) become
`lowerCL`, `List.take n` and `includesCL`.  JavaScript `includes`
returns true for the empty needle, which `includesCL` reproduces.
-/

namespace SignTrace

/-- Convert a Lean string literal to the character-list representation. -/
def str (s : String) : List Char := s.toList

/-- JavaScript toLowerCase, restricted to the character-wise case map. -/
def lowerCL (s : List Char) : List Char := s.map Char.toLower

/-- Does the first list occur at the start of the second?  (needle, hay). -/
def hasPrefixCL : List Char → List Char → Bool
  | [], _ => true
  | _ :: _, [] => false
  | a :: as, b :: bs => a == b && hasPrefixCL as bs

/-- JavaScript String.includes: the needle occurs contiguously in the hay.
The empty needle is contained in every string, as in JavaScript. -/
def includesCL (hay needle : List Char) : Bool :=
  hasPrefixCL needle hay ||
    match hay with
    | [] => false
    | _ :: t => includesCL t needle

/-- Violation type tags from the Violation interface. -/
inductive VType
  | missing_step
  | wrong_order
  | informal_decision
  | no_justification
  | retroactive
deriving DecidableEq, Repr

/-- Severity tiers. -/
inductive Sev
  | low
  | medium
  | high
  | critical
deriving DecidableEq, Repr

/-- Violation record (Violation interface in complianceEngine.ts). -/
structure Violation where
  type : VType
  description : List Char
  severity : Sev
  evidenceText : Option (List Char) := none
  evidenceTime : Option (List Char) := none
  violatedRule : Option (List Char) := none
deriving DecidableEq, Repr

/-- Process event as consumed by the compliance checks (ProcessEvent fields
used by complianceEngine.ts: stepNumber, action, timestamp, legalReference). -/
structure PEvent where
  stepNumber : Nat
  action : List Char
  timestamp : Option (List Char) := none
  legalReference : Option (List Char) := none
deriving DecidableEq, Repr

/-- determineSeverity: keyword heuristics on the required-step text. -/
def determineSeverity (step : List Char) : Sev :=
  let stepLower := lowerCL step
  if includesCL stepLower (str "rights") || includesCL stepLower (str "notify") then
    .critical
  else if includesCL stepLower (str "hearing") || includesCL stepLower (str "evidence") then
    .high
  else if includesCL stepLower (str "document") || includesCL stepLower (str "record") then
    .medium
  else
    .low

/-- checkMissingSteps: for each required step, bidirectional 15-character
prefix containment against the lowercased event actions; emit a
missing_step violation when no event matches. -/
def checkMissingSteps (events : List PEvent) (requiredSteps : List (List Char)) :
    List Violation :=
  let eventActions := events.map (fun e => lowerCL e.action)
  requiredSteps.foldr
    (fun step acc =>
      let stepLower := lowerCL step
      let found := eventActions.any (fun action =>
        includesCL action (stepLower.take 15) ||
        includesCL stepLower (action.take 15))
      if found then acc
      else
        { type := .missing_step,
          description := str "Required step missing: \"" ++ step ++ str "\"",
          severity := determineSeverity step,
          violatedRule := some (str "Required procedure step: " ++ step) } :: acc)
    []

/-- First required step (in catalog order) whose 15-character lowercase
prefix occurs in the event action; mirrors the inner break in
checkStepOrder. -/
def firstMatchingStep (action : List Char) : List (List Char) → Option (List Char)
  | [] => none
  | s :: rest =>
      if includesCL (lowerCL action) ((lowerCL s).take 15) then some s
      else firstMatchingStep action rest

/-- foundStepOrder: the subsequence of required steps found, in event order,
paired with the matching event's step number. -/
def foundStepOrder (events : List PEvent) (requiredSteps : List (List Char)) :
    List (List Char × Nat) :=
  events.filterMap (fun e =>
    (firstMatchingStep e.action requiredSteps).map (fun s => (s, e.stepNumber)))

/-- The wrong_order violation emitted for an adjacent inversion. -/
def mkWrongOrder (prevStep curStep : List Char) : Violation :=
  { type := .wrong_order,
    description := str "Steps performed out of order: \"" ++ curStep ++
      str "\" should come after \"" ++ prevStep ++ str "\"",
    severity := .medium }

/-- Adjacent-pair comparison loop of checkStepOrder. -/
def checkStepOrderAux (requiredSteps : List (List Char)) :
    List (List Char × Nat) → List Violation
  | [] => []
  | [_] => []
  | a :: b :: rest =>
      (if requiredSteps.indexOf a.1 > requiredSteps.indexOf b.1 then
        [mkWrongOrder a.1 b.1]
      else []) ++ checkStepOrderAux requiredSteps (b :: rest)

/-- checkStepOrder: compare catalog positions of adjacent found steps. -/
def checkStepOrder (events : List PEvent) (requiredSteps : List (List Char)) :
    List Violation :=
  checkStepOrderAux requiredSteps (foundStepOrder events requiredSteps)

/-- The informal_decision violation emitted by checkForbiddenActions for one
matching (event, forbidden action) pair. -/
def mkForbidden (e : PEvent) (forbidden : List Char) : Violation :=
  { type := .informal_decision,
    description := str "Forbidden action detected: \"" ++ forbidden ++ str "\"",
    severity := .high,
    evidenceText := some e.action,
    evidenceTime := e.timestamp }

/-- Inner loop of checkForbiddenActions over the forbidden-action list. -/
def forbiddenForEvent (e : PEvent) : List (List Char) → List Violation
  | [] => []
  | f :: fs =>
      (if includesCL (lowerCL e.action) ((lowerCL f).take 15) then
        [mkForbidden e f]
      else []) ++ forbiddenForEvent e fs

/-- checkForbiddenActions: nested loops, one violation per matching
(event, forbidden action) pair. -/
def checkForbiddenActions : List PEvent → List (List Char) → List Violation
  | [], _ => []
  | e :: rest, forbiddenActions =>
      forbiddenForEvent e forbiddenActions ++ checkForbiddenActions rest forbiddenActions

/-- Flag for actions containing decision or ruling. -/
def isDecisionAction (action : List Char) : Bool :=
  includesCL (lowerCL action) (str "decision") || includesCL (lowerCL action) (str "ruling")

/-- Flag for actions containing evidence or review. -/
def isEvidenceAction (action : List Char) : Bool :=
  includesCL (lowerCL action) (str "evidence") || includesCL (lowerCL action) (str "review")

/-- Fold step of checkInformalDecisions: keep the earliest (lowest step
number, first seen on ties) decision-like and evidence-like events. -/
def informalScanStep (acc : Option PEvent × Option PEvent) (e : PEvent) :
    Option PEvent × Option PEvent :=
  let d :=
    if isDecisionAction e.action then
      match acc.1 with
      | none => some e
      | some cur => if e.stepNumber < cur.stepNumber then some e else some cur
    else acc.1
  let v :=
    if isEvidenceAction e.action then
      match acc.2 with
      | none => some e
      | some cur => if e.stepNumber < cur.stepNumber then some e else some cur
    else acc.2
  (d, v)

/-- Decimal rendering of a step number, for evidence text. -/
def natStr (n : Nat) : List Char := (toString n).toList

/-- checkInformalDecisions: one critical violation when the earliest
decision-like event precedes the earliest evidence-like event. -/
def checkInformalDecisions (events : List PEvent) : List Violation :=
  match events.foldl informalScanStep (none, none) with
  | (some d, some v) =>
      if d.stepNumber < v.stepNumber then
        [{ type := .informal_decision,
           description :=
             str "Decision appears to have been made before evidence was formally reviewed",
           severity := .critical,
           evidenceText := some (str "Decision at step " ++ natStr d.stepNumber ++
             str ", evidence review at step " ++ natStr v.stepNumber) }]
      else []
  | _ => []

/-- JavaScript truthiness test on an optional string: null, undefined and
the empty string are falsy. -/
def jsFalsyStr : Option (List Char) → Bool
  | none => true
  | some s => s.isEmpty

/-- checkLegalJustification: a no_justification violation for each
decision-like event with no (or empty) legalReference. -/
def checkLegalJustification (events : List PEvent) : List Violation :=
  (events.filter (fun e => isDecisionAction e.action)).foldr
    (fun e acc =>
      if jsFalsyStr e.legalReference then
        { type := .no_justification,
          description := str "Decision made without citing legal basis",
          severity := .medium,
          evidenceText := some e.action } :: acc
      else acc)
    []

/-- Per-violation update of (complianceScore, riskScore): the switch
statement inside calculateScores. -/
def scoreLoop : List Violation → Int × Int → Int × Int
  | [], acc => acc
  | v :: vs, (c, r) =>
      scoreLoop vs
        (match v.severity with
         | .critical => (c - 25, r + 30)
         | .high => (c - 15, r + 20)
         | .medium => (c - 8, r + 10)
         | .low => (c - 3, r + 5))

/-- Clamp an integer to the closed interval from 0 to 100. -/
def clamp100 (x : Int) : Int := max 0 (min 100 x)

/-- calculateScores: fixed per-severity deltas starting from 100 and 0,
clamped, with the tier rule on riskScore and critical/high presence.
totalEvents is accepted but unused for scoring, as in the source. -/
def calculateScores (violations : List Violation) (totalEvents : Nat) :
    Int × Int × Sev :=
  let cr := scoreLoop violations (100, 0)
  let complianceScore := clamp100 cr.1
  let riskScore := clamp100 cr.2
  let severityLevel :=
    if riskScore ≥ 70 || violations.any (fun v => v.severity == .critical) then
      Sev.critical
    else if riskScore ≥ 50 || violations.any (fun v => v.severity == .high) then
      Sev.high
    else if riskScore ≥ 25 then Sev.medium
    else Sev.low
  let _ := totalEvents
  (complianceScore, riskScore, severityLevel)

/-- JavaScript runtime errors that the analysis pipeline can raise. -/
inductive JsErr
  | syntaxError
  | typeError
deriving DecidableEq, Repr

/-- Model of a stored catalog text field as classified by its JSON parse
outcome.  empty covers null/undefined/empty string (falsy, so the source
substitutes a default literal before parsing); jsonList is a JSON array of
strings; jsonString is a JSON string, which JavaScript for..of iterates
character by character without raising, behaving throughout the engine
(for..of, length, indexing, indexOf) like the array of its one-character
strings; jsonNonIterable is any other parseable JSON value, on which a
for..of loop raises a TypeError (object, number, boolean, null);
invalid is text on which JSON.parse raises a SyntaxError. -/
inductive StoredField
  | empty
  | jsonList (xs : List (List Char))
  | jsonString (s : List Char)
  | jsonNonIterable
  | invalid
deriving DecidableEq, Repr

/-- Parsed JavaScript value of a list-shaped catalog field. -/
inductive JsVal
  | arr (xs : List (List Char))
  | nonIterable
deriving DecidableEq, Repr

/-- JSON.parse(field or default list literal): a falsy field becomes the
empty array; invalid JSON raises.  A JSON string is represented by the
array of its one-character strings, since every use the engine makes of
the parsed value (for..of, length, indexing, indexOf, and the substring
matching applied to each element) coincides on the two. -/
def parseField : StoredField → Except JsErr JsVal
  | .empty => .ok (.arr [])
  | .jsonList xs => .ok (.arr xs)
  | .jsonString s => .ok (.arr (s.map (fun c => [c])))
  | .jsonNonIterable => .ok .nonIterable
  | .invalid => .error .syntaxError

/-- JSON.parse(timeLimits or default object literal): the value is parsed
but never iterated, so only invalid JSON raises. -/
def parseTimeLimits : StoredField → Except JsErr Unit
  | .invalid => .error .syntaxError
  | _ => .ok ()

/-- A for..of loop over a parsed value: raises TypeError unless the value
is an array. -/
def forOfList : JsVal → Except JsErr (List (List Char))
  | .arr xs => .ok xs
  | .nonIterable => .error .typeError

/-- Catalog case-type row with its stored text fields. -/
structure CaseTypeRec where
  id : List Char
  name : List Char
  requiredSteps : StoredField
  forbiddenActions : StoredField
  timeLimits : StoredField
deriving DecidableEq, Repr

/-- Match score of one case type in detectBestMatchingCaseType: count of
(event, required step) pairs where the lowercased action contains the
10-character lowercase prefix of the step.  The inner for..of over a
non-iterable parsed value raises only when some event reaches it. -/
def matchScoreCT (events : List PEvent) (ct : CaseTypeRec) : Except JsErr Nat := do
  let rv ← parseField ct.requiredSteps
  match rv with
  | .arr steps =>
      pure ((events.map (fun e =>
        steps.countP (fun s => includesCL (lowerCL e.action) ((lowerCL s).take 10)))).sum)
  | .nonIterable =>
      if events.isEmpty then pure 0 else .error .typeError

/-- detectBestMatchingCaseType: best strictly-higher match score, first
catalog entry on ties, none when the catalog is empty or the best score
is zero. -/
def detectBestMatchingCaseType (events : List PEvent) (caseTypes : List CaseTypeRec) :
    Except JsErr (Option CaseTypeRec) :=
  match caseTypes with
  | [] => .ok none
  | c0 :: _ => do
      let best ← caseTypes.foldlM
        (fun (acc : CaseTypeRec × Nat) ct => do
          let s ← matchScoreCT events ct
          pure (if s > acc.2 then (ct, s) else acc))
        (c0, 0)
      pure (if best.2 > 0 then some best.1 else none)

/-- Violation-collection phase of analyzeCompliance: the four catalog-gated
checks run only when a case type was resolved; checkLegalJustification
always runs.  Field parsing and iteration raise as in the source. -/
def collectViolations (events : List PEvent) (caseType : Option CaseTypeRec) :
    Except JsErr (List Violation) := do
  let typeViolations ←
    match caseType with
    | none => pure []
    | some ct => do
        let rv ← parseField ct.requiredSteps
        let fv ← parseField ct.forbiddenActions
        let _ ← parseTimeLimits ct.timeLimits
        let requiredSteps ← forOfList rv
        let missing := checkMissingSteps events requiredSteps
        let order := checkStepOrder events requiredSteps
        let forbidden ←
          match fv with
          | .arr xs => pure (checkForbiddenActions events xs)
          | .nonIterable =>
              if events.isEmpty then pure ([] : List Violation)
              else .error .typeError
        let informal := checkInformalDecisions events
        pure (missing ++ order ++ forbidden ++ informal)
  pure (typeViolations ++ checkLegalJustification events)

/-- Computed compliance result (persistence and summary text elided). -/
structure ComplianceResult where
  caseTypeId : Option (List Char)
  complianceScore : Int
  riskScore : Int
  severityLevel : Sev
  violations : List Violation
deriving DecidableEq, Repr

/-- analyzeCompliance, as a function of the fetched events, the looked-up
case type (when an id was specified and found) and the full catalog used
for detection otherwise. -/
def analyzeCompliance (events : List PEvent) (specified : Option CaseTypeRec)
    (catalog : List CaseTypeRec) : Except JsErr ComplianceResult := do
  let caseType ←
    match specified with
    | some ct => pure (some ct)
    | none => detectBestMatchingCaseType events catalog
  let violations ← collectViolations events caseType
  let scores := calculateScores violations events.length
  pure { caseTypeId := caseType.map (fun ct => ct.id),
         complianceScore := scores.1,
         riskScore := scores.2.1,
         severityLevel := scores.2.2,
         violations := violations }

/-- Recording row as read by getSimilarCases: institution and presence of a
compliance report.  The store list is assumed to be in createdAt-descending
order (the orderBy clause is executed by the database). -/
structure RecordingRow where
  id : Nat
  institution : Option (List Char)
  hasReport : Bool
deriving DecidableEq, Repr

/-- getSimilarCases: recordings of the same institution that have a
compliance report, first 50 in most-recent-first store order.  The query
has no clause excluding the current recording. -/
def getSimilarCases (store : List RecordingRow) (current : RecordingRow) :
    List RecordingRow :=
  (store.filter (fun r => r.institution == current.institution && r.hasReport)).take 50

/-- Peer case as consumed by analyzeStatisticalAnomaly: an optional
compliance-report score.  Scores are modelled as real numbers. -/
structure PeerCase where
  complianceReport : Option ℝ

/-- JavaScript Math.round (half away from zero on the values arising here). -/
noncomputable def jsRound (x : ℝ) : ℤ := ⌊x + 1 / 2⌋

/-- Bias indicator fields relevant to the statistical-anomaly analysis
(the rendered description string is presentation text and elided). -/
structure BiasIndicator where
  confidence : ℝ
  deviationScore : ℝ
  currentScore : ℝ
  averageScore : ℤ
  standardDeviation : ℤ
  sampleSize : Nat

/-- Peer score extraction in analyzeStatisticalAnomaly: cases with a
report, in order, keeping the report score. -/
def peerScores (similarCases : List PeerCase) : List ℝ :=
  (similarCases.filter (fun c => c.complianceReport.isSome)).filterMap
    (fun c => c.complianceReport)

/-- avgScore local of analyzeStatisticalAnomaly: arithmetic mean. -/
noncomputable def popMean (scores : List ℝ) : ℝ := scores.sum / scores.length

/-- stdDev local of analyzeStatisticalAnomaly: population standard
deviation, dividing the summed squared deviations by n. -/
noncomputable def popStdDev (scores : List ℝ) : ℝ :=
  Real.sqrt ((scores.map (fun s => (s - popMean scores) ^ 2)).sum / scores.length)

/-- zScore local of analyzeStatisticalAnomaly: absolute deviation of the
current score from the mean in standard-deviation units, 0 when the
standard deviation is 0. -/
noncomputable def zScoreOf (currentScore : ℝ) (scores : List ℝ) : ℝ :=
  if popStdDev scores > 0 then |currentScore - popMean scores| / popStdDev scores else 0

/-- analyzeStatisticalAnomaly: needs at least five peer cases and at least
five peer scores, flags when the z-score exceeds 2. -/
noncomputable def analyzeStatisticalAnomaly (currentScore : ℝ)
    (similarCases : List PeerCase) : Option BiasIndicator :=
  if similarCases.length < 5 then none
  else
    let scores := peerScores similarCases
    if scores.length < 5 then none
    else
      let zScore := zScoreOf currentScore scores
      if zScore > 2 then
        some { confidence := min (0.5 + (zScore - 2) * 0.15) 0.95,
               deviationScore := zScore,
               currentScore := currentScore,
               averageScore := jsRound (popMean scores),
               standardDeviation := jsRound (popStdDev scores),
               sampleSize := scores.length }
      else none

/-!
Specification-side definitions, written from the spec text, used to state
refinement theorems about the executable definitions above.
-/

/-- Spec table: compliance-score penalty per severity. -/
def specCompliancePenalty : Sev → Int
  | .critical => 25
  | .high => 15
  | .medium => 8
  | .low => 3

/-- Spec table: risk-score gain per severity. -/
def specRiskGain : Sev → Int
  | .critical => 30
  | .high => 20
  | .medium => 10
  | .low => 5

/-- Spec tier rule: severity level as a function of the clamped risk score
and the presence of critical/high violations. -/
def specSeverityTier (riskScore : Int) (hasCritical hasHigh : Bool) : Sev :=
  if riskScore ≥ 70 || hasCritical then .critical
  else if riskScore ≥ 50 || hasHigh then .high
  else if riskScore ≥ 25 then .medium
  else .low

/-- Numeric rank of a severity tier, for monotonicity statements. -/
def sevRank : Sev → Nat
  | .low => 0
  | .medium => 1
  | .high => 2
  | .critical => 3

/-- Spec count of adjacent inversions in the found-step subsequence. -/
def specAdjInversions (requiredSteps : List (List Char))
    (found : List (List Char × Nat)) : Nat :=
  (found.zip found.tail).countP
    (fun p => requiredSteps.indexOf p.1.1 > requiredSteps.indexOf p.2.1)

/-!
Concrete inputs for the scenario claims.
-/

/-- Events of the end-to-end scenario: hearing opened at step 1, decision
announced at step 2 with no legal reference. -/
def c1Events : List PEvent :=
  [{ stepNumber := 1, action := str "Hearing opened" },
   { stepNumber := 2, action := str "Decision announced" }]

/-- Resolved case type of the end-to-end scenario: three required steps,
no forbidden actions. -/
def c1CaseType : CaseTypeRec :=
  { id := str "ct1",
    name := str "resolved",
    requiredSteps := .jsonList
      [str "Rights reading", str "Hearing opened", str "Decision announced"],
    forbiddenActions := .jsonList [],
    timeLimits := .empty }

/-- An event whose action is a two-word phrase containing a space. -/
def wsEvent : PEvent := { stepNumber := 1, action := str "hearing opened" }

/-- An event whose action contains no whitespace. -/
def xEvent : PEvent := { stepNumber := 1, action := str "x" }

/-- Events with a decision-like action at step 1 and an evidence-like
action at step 2, neither carrying a legal reference. -/
def c4Events : List PEvent :=
  [{ stepNumber := 1, action := str "decision issued" },
   { stepNumber := 2, action := str "evidence presented" }]

/-- A catalog entry whose requiredSteps field parses to a non-list JSON
value. -/
def c6BadCaseType : CaseTypeRec :=
  { id := str "ct6",
    name := str "malformed",
    requiredSteps := .jsonNonIterable,
    forbiddenActions := .empty,
    timeLimits := .empty }

/-- A catalog entry whose requiredSteps field parses to a JSON string. -/
def c6StrCaseType : CaseTypeRec :=
  { id := str "ct6s",
    name := str "string field",
    requiredSteps := .jsonString (str "abc"),
    forbiddenActions := .empty,
    timeLimits := .empty }

/-- A recording with a compliance report. -/
def c7Row : RecordingRow :=
  { id := 0, institution := some (str "court a"), hasReport := true }

/-- First required step of the order scenario. -/
def stepA : List Char := str "first step alpha"

/-- Second required step of the order scenario. -/
def stepB : List Char := str "second step beta"

/-- Events of the order scenario: an action matching the second required
step at step 1 and one matching the first at step 2. -/
def c9Events : List PEvent :=
  [{ stepNumber := 1, action := stepB },
   { stepNumber := 2, action := stepA }]

/-- An event whose action matches two distinct forbidden entries. -/
def c10Event : PEvent :=
  { stepNumber := 3, action := str "private meeting with plaintiff" }

/-- Two distinct forbidden-action entries both matched by c10Event. -/
def c10Forbidden : List (List Char) :=
  [str "private meeting", str "meeting with plain"]

/-- Five peer cases with compliance scores 70, 72, 68, 71, 69. -/
def c5Peers : List PeerCase :=
  [{ complianceReport := some 70 }, { complianceReport := some 72 },
   { complianceReport := some 68 }, { complianceReport := some 71 },
   { complianceReport := some 69 }]

/-- Five peer cases that all share the compliance score 70. -/
def c5PeersEqual : List PeerCase :=
  [{ complianceReport := some 70 }, { complianceReport := some 70 },
   { complianceReport := some 70 }, { complianceReport := some 70 },
   { complianceReport := some 70 }]

/-- A violation of critical severity, for the monotonicity witness. -/
def critViolation : Violation :=
  { type := .informal_decision,
    description := str "x",
    severity := .critical }

/-- A catalog entry whose three stored fields are all falsy. -/
def ctEmpty : CaseTypeRec :=
  { id := str "ct0",
    name := str "empty fields",
    requiredSteps := .empty,
    forbiddenActions := .empty,
    timeLimits := .empty }

/-- Only three peer cases, below the statistical-anomaly threshold. -/
def c5ThreePeers : List PeerCase :=
  [{ complianceReport := some 70 }, { complianceReport := some 72 },
   { complianceReport := some 68 }]

/-- The peer score list extracted from c5Peers. -/
def c5Scores : List ℝ := [70, 72, 68, 71, 69]

/-- The peer score list extracted from c5PeersEqual. -/
def c5ScoresEqual : List ℝ := [70, 70, 70, 70, 70]

/-!
Helper lemmas shared by the claim theorems.
-/

/-- JavaScript includes with an empty needle always succeeds. -/
theorem includesCL_nil (hay : List Char) : includesCL hay [] = true := by
  cases hay <;> simp [includesCL, hasPrefixCL]

/-- Closed form of the per-violation score loop: the compliance score drops
by the summed penalties and the risk score rises by the summed gains. -/
theorem scoreLoop_eq (vs : List Violation) : ∀ c r : Int,
    scoreLoop vs (c, r) =
      (c - ((vs.map (fun v => specCompliancePenalty v.severity)).sum),
       r + ((vs.map (fun v => specRiskGain v.severity)).sum)) := by
  induction vs with
  | nil => intro c r; simp [scoreLoop]
  | cons v vs ih =>
      intro c r
      cases hv : v.severity
      all_goals
        simp [scoreLoop, hv, ih, specCompliancePenalty, specRiskGain, Prod.ext_iff]
        omega

/-- clamp100 stays at or above 0. -/
theorem clamp100_nonneg (x : Int) : 0 ≤ clamp100 x := by
  unfold clamp100; omega

/-- clamp100 stays at or below 100. -/
theorem clamp100_le (x : Int) : clamp100 x ≤ 100 := by
  unfold clamp100; omega

/-- clamp100 is monotone. -/
theorem clamp100_mono {x y : Int} (h : x ≤ y) : clamp100 x ≤ clamp100 y := by
  unfold clamp100; omega

/-- Every severity rank is at most the rank of critical. -/
theorem sevRank_le_three (s : Sev) : sevRank s ≤ 3 := by
  cases s <;> simp [sevRank]

/-- The inner forbidden-action loop emits exactly the matching entries,
each as a violation carrying the event's action as evidence. -/
theorem forbiddenForEvent_eq (e : PEvent) (fs : List (List Char)) :
    forbiddenForEvent e fs =
      (fs.filter (fun f => includesCL (lowerCL e.action) ((lowerCL f).take 15))).map
        (mkForbidden e) := by
  induction fs with
  | nil => rfl
  | cons f fs ih =>
      by_cases h : includesCL (lowerCL e.action) ((lowerCL f).take 15) = true
      · simp [forbiddenForEvent, List.filter_cons, h, ih]
      · simp [forbiddenForEvent, List.filter_cons, h, ih]

/-- checkForbiddenActions is the event-wise concatenation of the inner
loop's output. -/
theorem checkForbiddenActions_eq (events : List PEvent) (fs : List (List Char)) :
    checkForbiddenActions events fs =
      events.flatMap (fun e =>
        (fs.filter (fun f => includesCL (lowerCL e.action) ((lowerCL f).take 15))).map
          (mkForbidden e)) := by
  induction events with
  | nil => rfl
  | cons e rest ih =>
      simp [checkForbiddenActions, forbiddenForEvent_eq, ih]

/-- All order-check violations are medium wrong_order violations. -/
theorem checkStepOrderAux_all (req : List (List Char)) (found : List (List Char × Nat)) :
    (checkStepOrderAux req found).all
      (fun v => v.severity == Sev.medium && v.type == VType.wrong_order) = true := by
  induction found with
  | nil => rfl
  | cons a rest ih =>
      cases rest with
      | nil => rfl
      | cons b rest2 =>
          by_cases h : req.indexOf a.1 > req.indexOf b.1 <;>
            simp [checkStepOrderAux, h, mkWrongOrder] <;>
            simpa using ih

/-- The order check emits one violation per adjacent inversion of the
found-step subsequence. -/
theorem checkStepOrderAux_length (req : List (List Char)) (found : List (List Char × Nat)) :
    (checkStepOrderAux req found).length = specAdjInversions req found := by
  induction found with
  | nil => rfl
  | cons a rest ih =>
      cases rest with
      | nil => rfl
      | cons b rest2 =>
          by_cases h : req.indexOf a.1 > req.indexOf b.1 <;>
            simp [checkStepOrderAux, h, specAdjInversions, List.countP_cons] at ih ⊢ <;>
            omega

/-!
Claim theorems.
-/

/-- C1: for the two-event hearing/decision scenario against the resolved
case type with required steps rights reading, hearing opened, decision
announced and no forbidden actions, the analysis yields exactly one
critical missing_step violation for the rights reading and one medium
no_justification violation, with complianceScore 67, riskScore 40 and
severityLevel critical. -/
theorem c1_end_to_end_scenario :
    analyzeCompliance c1Events (some c1CaseType) [] = Except.ok
      { caseTypeId := some (str "ct1"),
        complianceScore := 67,
        riskScore := 40,
        severityLevel := .critical,
        violations :=
          [{ type := .missing_step,
             description := str "Required step missing: \"Rights reading\"",
             severity := .critical,
             violatedRule := some (str "Required procedure step: Rights reading") },
           { type := .no_justification,
             description := str "Decision made without citing legal basis",
             severity := .medium,
             evidenceText := some (str "Decision announced") }] } := by
  rfl

/-- C2: for every violation list the aggregation applies exactly the fixed
per-severity deltas (critical 25/30, high 15/20, medium 8/10, low 3/5)
from 100 and 0, both scores are clamped into the interval from 0 to 100,
and the severity level is the deterministic tier function of the risk
score and the presence of critical/high violations. -/
theorem c2_score_aggregation (violations : List Violation) (totalEvents : Nat) :
    (calculateScores violations totalEvents).1 =
      clamp100 (100 - ((violations.map (fun v => specCompliancePenalty v.severity)).sum)) ∧
    (calculateScores violations totalEvents).2.1 =
      clamp100 ((violations.map (fun v => specRiskGain v.severity)).sum) ∧
    0 ≤ (calculateScores violations totalEvents).1 ∧
    (calculateScores violations totalEvents).1 ≤ 100 ∧
    0 ≤ (calculateScores violations totalEvents).2.1 ∧
    (calculateScores violations totalEvents).2.1 ≤ 100 ∧
    (calculateScores violations totalEvents).2.2 =
      specSeverityTier (calculateScores violations totalEvents).2.1
        (violations.any (fun v => v.severity == Sev.critical))
        (violations.any (fun v => v.severity == Sev.high)) := by
  refine ⟨?_, ?_, clamp100_nonneg _, clamp100_le _, clamp100_nonneg _, clamp100_le _, rfl⟩
  · show clamp100 (scoreLoop violations (100, 0)).1 = _
    rw [scoreLoop_eq]
  · show clamp100 (scoreLoop violations (100, 0)).2 = _
    rw [scoreLoop_eq]
    simp

/-- C8: appending one more critical violation never decreases the risk
score and never lowers the severity tier. -/
theorem c8_critical_monotone (violations : List Violation) (totalEvents : Nat)
    (v : Violation) (h : v.severity = Sev.critical) :
    (calculateScores violations totalEvents).2.1 ≤
      (calculateScores (violations ++ [v]) totalEvents).2.1 ∧
    sevRank (calculateScores violations totalEvents).2.2 ≤
      sevRank (calculateScores (violations ++ [v]) totalEvents).2.2 := by
  constructor
  · simp only [calculateScores, scoreLoop_eq, List.map_append, List.sum_append,
      List.map_cons, List.map_nil, List.sum_cons, List.sum_nil]
    apply clamp100_mono
    have : specRiskGain v.severity = 30 := by rw [h]; rfl
    omega
  · have hc : (violations ++ [v]).any (fun w => w.severity == Sev.critical) = true := by
      simp [List.any_append, h]
    have : (calculateScores (violations ++ [v]) totalEvents).2.2 = Sev.critical := by
      simp only [calculateScores, hc]
      simp
    rw [this]
    exact le_trans (sevRank_le_three _) (by simp [sevRank])

/-- C8 witness: instantiated at the empty violation list and a concrete
critical violation. -/
theorem c8_critical_monotone_witness :
    critViolation.severity = Sev.critical ∧
    ((calculateScores [] 0).2.1 ≤ (calculateScores ([] ++ [critViolation]) 0).2.1 ∧
     sevRank (calculateScores [] 0).2.2 ≤
       sevRank (calculateScores ([] ++ [critViolation]) 0).2.2) :=
  ⟨rfl, c8_critical_monotone [] 0 critViolation rfl⟩

/-- C9: the order check only emits medium wrong_order violations, one per
adjacent inversion of the found-step subsequence against catalog order;
for required order stepA, stepB with events matching stepB at step 1 and
stepA at step 2 it emits exactly one such violation. -/
theorem c9_adjacent_order_check :
    (∀ (events : List PEvent) (requiredSteps : List (List Char)),
      (checkStepOrder events requiredSteps).all
        (fun v => v.severity == Sev.medium && v.type == VType.wrong_order) = true ∧
      (checkStepOrder events requiredSteps).length =
        specAdjInversions requiredSteps (foundStepOrder events requiredSteps)) ∧
    checkStepOrder c9Events [stepA, stepB] =
      [{ type := .wrong_order,
         description := str
           "Steps performed out of order: \"first step alpha\" should come after \"second step beta\"",
         severity := .medium }] := by
  exact ⟨fun events req => ⟨checkStepOrderAux_all req _, checkStepOrderAux_length req _⟩, rfl⟩

/-- C10: the forbidden-action check emits one high-severity
informal_decision violation per matching (event, forbidden entry) pair,
each carrying the event's action as evidence; an event matching two
distinct forbidden entries yields two separate violations. -/
theorem c10_per_pair_forbidden :
    (∀ (events : List PEvent) (fs : List (List Char)),
      checkForbiddenActions events fs =
        events.flatMap (fun e =>
          (fs.filter (fun f => includesCL (lowerCL e.action) ((lowerCL f).take 15))).map
            (mkForbidden e))) ∧
    (∀ (e : PEvent) (fs : List (List Char)),
      (checkForbiddenActions [e] fs).length =
        fs.countP (fun f => includesCL (lowerCL e.action) ((lowerCL f).take 15))) ∧
    checkForbiddenActions [c10Event] c10Forbidden =
      [{ type := .informal_decision,
         description := str "Forbidden action detected: \"private meeting\"",
         severity := .high,
         evidenceText := some (str "private meeting with plaintiff") },
       { type := .informal_decision,
         description := str "Forbidden action detected: \"meeting with plain\"",
         severity := .high,
         evidenceText := some (str "private meeting with plaintiff") }] := by
  refine ⟨checkForbiddenActions_eq, ?_, rfl⟩
  intro e fs
  simp [checkForbiddenActions_eq, List.countP_eq_length_filter]

/-- C3 counterexample: with the single event whose action is the phrase
hearing opened, an empty required step and a whitespace-only required step
are both treated as found (no missing_step violation), and an empty
forbidden entry produces a violation, contradicting the claim that such
descriptions never match. -/
theorem c3_counterexample :
    checkMissingSteps [wsEvent] [str ""] = [] ∧
    checkMissingSteps [wsEvent] [str " "] = [] ∧
    (checkForbiddenActions [wsEvent] [str ""]).length = 1 :=
  ⟨rfl, rfl, rfl⟩

/-- An empty forbidden entry matches every event, one violation each. -/
theorem checkForbiddenActions_empty_entry (events : List PEvent) :
    (checkForbiddenActions events [[]]).length = events.length := by
  induction events with
  | nil => rfl
  | cons e rest ih =>
      simp [checkForbiddenActions, forbiddenForEvent, lowerCL, includesCL_nil, ih]

/-- C3 amended: an empty description matches every event (so the
missing-step check reports it missing only when the event list is empty,
and the forbidden-action check emits one violation per event), and a
whitespace-only description matches exactly the events whose action
contains that whitespace. -/
theorem c3_amended_matching (events : List PEvent) (h : events ≠ []) :
    checkMissingSteps events [[]] = [] ∧
    (checkForbiddenActions events [[]]).length = events.length ∧
    (checkMissingSteps [] [[]]).length = 1 ∧
    checkMissingSteps [wsEvent] [str " "] = [] ∧
    (checkMissingSteps [xEvent] [str " "]).length = 1 := by
  refine ⟨?_, checkForbiddenActions_empty_entry events, rfl, rfl, rfl⟩
  cases events with
  | nil => exact absurd rfl h
  | cons e rest =>
      simp [checkMissingSteps, lowerCL, includesCL_nil]

/-- C3 amended witness: instantiated at the one-event list. -/
theorem c3_amended_matching_witness :
    ([wsEvent] : List PEvent) ≠ [] ∧ checkMissingSteps [wsEvent] [[]] = [] :=
  ⟨by decide, (c3_amended_matching [wsEvent] (by decide)).1⟩

/-- The order check over an empty required-step list finds nothing. -/
theorem checkStepOrder_nil_steps (events : List PEvent) :
    checkStepOrder events [] = [] := by
  have h : foundStepOrder events [] = [] := by
    simp [foundStepOrder, firstMatchingStep]
  simp [checkStepOrder, h, checkStepOrderAux]

/-- The forbidden-action check over an empty forbidden list emits nothing. -/
theorem checkForbiddenActions_nil (events : List PEvent) :
    checkForbiddenActions events [] = [] := by
  induction events with
  | nil => rfl
  | cons e rest ih => simp [checkForbiddenActions, forbiddenForEvent, ih]

/-- Parsing the timeLimits field succeeds whenever the stored text is not
invalid JSON. -/
theorem parseTimeLimits_ok {f : StoredField} (h : f ≠ StoredField.invalid) :
    parseTimeLimits f = Except.ok () := by
  cases f <;> first | rfl | exact absurd rfl h

/-- Bind on a successful Except value applies the continuation. -/
theorem except_bind_ok {ε α β : Type} (a : α) (f : α → Except ε β) :
    (Except.ok a >>= f : Except ε β) = f a := rfl

/-- Bind on a failed Except value propagates the error. -/
theorem except_bind_error {ε α β : Type} (e : ε) (f : α → Except ε β) :
    (Except.error e >>= f : Except ε β) = Except.error e := rfl

/-- Map on a failed Except value propagates the error. -/
theorem except_map_error {ε α β : Type} (f : α → β) (e : ε) :
    (f <$> (Except.error e : Except ε α) : Except ε β) = Except.error e := rfl

/-- With both list fields falsy, the catalog-gated phase degrades to the
informal-decision check: the violation set is the informal-decision
violations followed by the justification violations. -/
theorem collectViolations_empty_fields (events : List PEvent) (ct : CaseTypeRec)
    (h1 : ct.requiredSteps = StoredField.empty)
    (h2 : ct.forbiddenActions = StoredField.empty)
    (h3 : ct.timeLimits ≠ StoredField.invalid) :
    collectViolations events (some ct) =
      Except.ok (checkInformalDecisions events ++ checkLegalJustification events) := by
  obtain ⟨cid, cname, rs, fa, tl⟩ := ct
  replace h1 : rs = StoredField.empty := h1
  replace h2 : fa = StoredField.empty := h2
  replace h3 : tl ≠ StoredField.invalid := h3
  subst h1
  subst h2
  have hms : checkMissingSteps events [] = [] := rfl
  cases tl <;>
    first
      | exact absurd rfl h3
      | (show Except.ok (checkMissingSteps events [] ++ checkStepOrder events [] ++
           checkForbiddenActions events [] ++ checkInformalDecisions events ++
           checkLegalJustification events) = _;
         rw [hms, checkStepOrder_nil_steps, checkForbiddenActions_nil];
         simp)

/-- With a requiredSteps field holding a JSON string and a falsy
forbiddenActions field, the catalog-gated phase completes: the string is
iterated character by character, so the missing-step and order checks run
over its one-character strings. -/
theorem collectViolations_jsonString (events : List PEvent) (ct : CaseTypeRec)
    (s : List Char)
    (h1 : ct.requiredSteps = StoredField.jsonString s)
    (h2 : ct.forbiddenActions = StoredField.empty)
    (h3 : ct.timeLimits ≠ StoredField.invalid) :
    collectViolations events (some ct) =
      Except.ok (checkMissingSteps events (s.map (fun c => [c])) ++
        checkStepOrder events (s.map (fun c => [c])) ++
        checkInformalDecisions events ++ checkLegalJustification events) := by
  obtain ⟨cid, cname, rs, fa, tl⟩ := ct
  replace h1 : rs = StoredField.jsonString s := h1
  replace h2 : fa = StoredField.empty := h2
  replace h3 : tl ≠ StoredField.invalid := h3
  subst h1
  subst h2
  cases tl <;>
    first
      | exact absurd rfl h3
      | (show Except.ok (checkMissingSteps events (s.map (fun c => [c])) ++
           checkStepOrder events (s.map (fun c => [c])) ++
           checkForbiddenActions events [] ++ checkInformalDecisions events ++
           checkLegalJustification events) = _;
         rw [checkForbiddenActions_nil];
         simp)

/-- C4 counterexample: for events with a decision-like action at step 1 and
an evidence-like action at step 2, the informal-decision check would emit
a violation, yet an analysis run with no specified case type and an empty
catalog produces a result containing no informal_decision violation. -/
theorem c4_counterexample :
    checkInformalDecisions c4Events ≠ [] ∧
    analyzeCompliance c4Events none [] = Except.ok
      { caseTypeId := none,
        complianceScore := 92,
        riskScore := 10,
        severityLevel := .low,
        violations :=
          [{ type := .no_justification,
             description := str "Decision made without citing legal basis",
             severity := .medium,
             evidenceText := some (str "decision issued") }] } ∧
    (analyzeCompliance c4Events none []).map
      (fun r => r.violations.countP (fun v => v.type == VType.informal_decision)) =
      Except.ok 0 :=
  ⟨by decide, rfl, rfl⟩

/-- C4 amended: the informal/early-decision check is applied only on runs
where a case type was resolved; with no case type specified and none
detectable the violation set is exactly the legal-justification check's
output, while any resolved case type (even one with falsy rule fields)
makes the informal-decision check run. -/
theorem c4_amended_gating :
    (∀ events : List PEvent,
      analyzeCompliance events none [] = Except.ok
        { caseTypeId := none,
          complianceScore := (calculateScores (checkLegalJustification events) events.length).1,
          riskScore := (calculateScores (checkLegalJustification events) events.length).2.1,
          severityLevel := (calculateScores (checkLegalJustification events) events.length).2.2,
          violations := checkLegalJustification events }) ∧
    (∀ (events : List PEvent) (ct : CaseTypeRec),
      ct.requiredSteps = StoredField.empty → ct.forbiddenActions = StoredField.empty →
      ct.timeLimits = StoredField.empty →
      collectViolations events (some ct) =
        Except.ok (checkInformalDecisions events ++ checkLegalJustification events)) := by
  constructor
  · intro events
    rfl
  · intro events ct h1 h2 h3
    exact collectViolations_empty_fields events ct h1 h2 (by rw [h3]; intro hx; cases hx)

/-- C4 amended witness: instantiated at the decision-then-evidence events
and the empty-field case type. -/
theorem c4_amended_gating_witness :
    ctEmpty.requiredSteps = StoredField.empty ∧
    collectViolations c4Events (some ctEmpty) =
      Except.ok (checkInformalDecisions c4Events ++ checkLegalJustification c4Events) :=
  ⟨rfl, c4_amended_gating.2 c4Events ctEmpty rfl rfl rfl⟩

/-- C6 counterexample: a case type whose requiredSteps field parses to a
non-list JSON value makes the analysis raise a TypeError instead of
degrading to an empty list, even with no events at all. -/
theorem c6_counterexample :
    analyzeCompliance [] (some c6BadCaseType) [] = Except.error JsErr.typeError :=
  rfl

/-- C6 amended: only falsy (absent or empty) requiredSteps and
forbiddenActions fields are treated as empty lists, with the analysis
completing on the type-independent checks and in-range scores.  A
non-list field is never defaulted to an empty list: a requiredSteps field
holding a non-iterable JSON value (object, number, boolean, null) always
raises a TypeError, a forbiddenActions field holding one raises as soon
as any event reaches the inner loop, and a requiredSteps field holding a
JSON string does not raise but is iterated character by character, the
analysis completing with the string's one-character entries as the rule
list and in-range scores. -/
theorem c6_amended_malformed (events : List PEvent) (ct : CaseTypeRec)
    (hr : ct.requiredSteps = StoredField.empty)
    (hf : ct.forbiddenActions = StoredField.empty)
    (ht : ct.timeLimits ≠ StoredField.invalid) :
    (∃ r, analyzeCompliance events (some ct) [] = Except.ok r ∧
       r.violations = checkInformalDecisions events ++ checkLegalJustification events ∧
       0 ≤ r.complianceScore ∧ r.complianceScore ≤ 100 ∧
       0 ≤ r.riskScore ∧ r.riskScore ≤ 100) ∧
    (∀ ct2 : CaseTypeRec, ct2.requiredSteps = StoredField.jsonNonIterable →
       ct2.forbiddenActions ≠ StoredField.invalid →
       ct2.timeLimits ≠ StoredField.invalid →
       analyzeCompliance events (some ct2) [] = Except.error JsErr.typeError) ∧
    (∀ ct3 : CaseTypeRec, ct3.requiredSteps = StoredField.empty →
       ct3.forbiddenActions = StoredField.jsonNonIterable →
       ct3.timeLimits ≠ StoredField.invalid → events ≠ [] →
       analyzeCompliance events (some ct3) [] = Except.error JsErr.typeError) ∧
    (∀ (ct4 : CaseTypeRec) (s : List Char),
       ct4.requiredSteps = StoredField.jsonString s →
       ct4.forbiddenActions = StoredField.empty →
       ct4.timeLimits ≠ StoredField.invalid →
       ∃ r, analyzeCompliance events (some ct4) [] = Except.ok r ∧
         r.violations = checkMissingSteps events (s.map (fun c => [c])) ++
           checkStepOrder events (s.map (fun c => [c])) ++
           checkInformalDecisions events ++ checkLegalJustification events ∧
         0 ≤ r.complianceScore ∧ r.complianceScore ≤ 100 ∧
         0 ≤ r.riskScore ∧ r.riskScore ≤ 100) := by
  refine ⟨?_, ?_, ?_, ?_⟩
  · have hcv := collectViolations_empty_fields events ct hr hf ht
    refine ⟨{ caseTypeId := some ct.id,
              complianceScore := (calculateScores
                (checkInformalDecisions events ++ checkLegalJustification events)
                events.length).1,
              riskScore := (calculateScores
                (checkInformalDecisions events ++ checkLegalJustification events)
                events.length).2.1,
              severityLevel := (calculateScores
                (checkInformalDecisions events ++ checkLegalJustification events)
                events.length).2.2,
              violations :=
                checkInformalDecisions events ++ checkLegalJustification events },
            ?_, rfl, clamp100_nonneg _, clamp100_le _, clamp100_nonneg _, clamp100_le _⟩
    simp [analyzeCompliance, hcv]
  · intro ct2 h1 h2 h3
    obtain ⟨cid, cname, rs, fa, tl⟩ := ct2
    replace h1 : rs = StoredField.jsonNonIterable := h1
    replace h2 : fa ≠ StoredField.invalid := h2
    replace h3 : tl ≠ StoredField.invalid := h3
    subst h1
    cases fa <;> cases tl <;>
      first
        | rfl
        | exact absurd rfl h2
        | exact absurd rfl h3
  · intro ct3 h1 h2 h3 h4
    obtain ⟨cid, cname, rs, fa, tl⟩ := ct3
    replace h1 : rs = StoredField.empty := h1
    replace h2 : fa = StoredField.jsonNonIterable := h2
    replace h3 : tl ≠ StoredField.invalid := h3
    subst h1
    subst h2
    have hne : events.isEmpty = false := by
      cases events with
      | nil => exact absurd rfl h4
      | cons e rest => rfl
    cases tl <;>
      first
        | exact absurd rfl h3
        | simp [analyzeCompliance, collectViolations, parseField, parseTimeLimits,
            forOfList, hne, except_bind_ok, except_bind_error, except_map_error]
  · intro ct4 s h1 h2 h3
    have hcv := collectViolations_jsonString events ct4 s h1 h2 h3
    refine ⟨{ caseTypeId := some ct4.id,
              complianceScore := (calculateScores
                (checkMissingSteps events (s.map (fun c => [c])) ++
                  checkStepOrder events (s.map (fun c => [c])) ++
                  checkInformalDecisions events ++ checkLegalJustification events)
                events.length).1,
              riskScore := (calculateScores
                (checkMissingSteps events (s.map (fun c => [c])) ++
                  checkStepOrder events (s.map (fun c => [c])) ++
                  checkInformalDecisions events ++ checkLegalJustification events)
                events.length).2.1,
              severityLevel := (calculateScores
                (checkMissingSteps events (s.map (fun c => [c])) ++
                  checkStepOrder events (s.map (fun c => [c])) ++
                  checkInformalDecisions events ++ checkLegalJustification events)
                events.length).2.2,
              violations :=
                checkMissingSteps events (s.map (fun c => [c])) ++
                  checkStepOrder events (s.map (fun c => [c])) ++
                  checkInformalDecisions events ++ checkLegalJustification events },
            ?_, rfl, clamp100_nonneg _, clamp100_le _, clamp100_nonneg _, clamp100_le _⟩
    simp [analyzeCompliance, hcv]

/-- C6 amended witness: instantiated at the decision-then-evidence events,
the empty-field case type, the non-iterable-field case type and the
string-field case type. -/
theorem c6_amended_malformed_witness :
    ctEmpty.requiredSteps = StoredField.empty ∧
    c6BadCaseType.requiredSteps = StoredField.jsonNonIterable ∧
    analyzeCompliance c4Events (some c6BadCaseType) [] = Except.error JsErr.typeError ∧
    c6StrCaseType.requiredSteps = StoredField.jsonString (str "abc") ∧
    (∃ r, analyzeCompliance c4Events (some c6StrCaseType) [] = Except.ok r ∧
       r.violations = checkMissingSteps c4Events ((str "abc").map (fun c => [c])) ++
         checkStepOrder c4Events ((str "abc").map (fun c => [c])) ++
         checkInformalDecisions c4Events ++ checkLegalJustification c4Events ∧
       0 ≤ r.complianceScore ∧ r.complianceScore ≤ 100 ∧
       0 ≤ r.riskScore ∧ r.riskScore ≤ 100) :=
  ⟨rfl, rfl,
    (c6_amended_malformed c4Events ctEmpty rfl rfl (by intro h; cases h)).2.1
      c6BadCaseType rfl (by intro h; cases h) (by intro h; cases h),
    rfl,
    (c6_amended_malformed c4Events ctEmpty rfl rfl (by intro h; cases h)).2.2.2
      c6StrCaseType (str "abc") rfl rfl (by intro h; cases h)⟩

/-- C7 counterexample: a store consisting of the current recording alone
(same institution, compliance report present) yields a peer population
that contains the current case itself, contradicting the claimed
exclusion. -/
theorem c7_counterexample :
    getSimilarCases [c7Row] c7Row = [c7Row] ∧ c7Row ∈ getSimilarCases [c7Row] c7Row :=
  ⟨rfl, by decide⟩

/-- C7 amended: the peer population is the first 50 same-institution
recordings that have a compliance report, in store (most-recent-first)
order, with no exclusion of the current case: whenever the current case is
in the store with a report it appears in its own peer population unless
the 50-entry cap is already filled. -/
theorem c7_amended_population :
    (∀ (store : List RecordingRow) (cur r : RecordingRow),
       r ∈ getSimilarCases store cur →
         (r.institution == cur.institution && r.hasReport) = true ∧ r ∈ store) ∧
    (∀ (store : List RecordingRow) (cur : RecordingRow),
       (getSimilarCases store cur).length ≤ 50) ∧
    (∀ (store : List RecordingRow) (cur : RecordingRow),
       cur ∈ store → cur.hasReport = true →
         cur ∈ getSimilarCases store cur ∨ (getSimilarCases store cur).length = 50) := by
  refine ⟨?_, ?_, ?_⟩
  · intro store cur r hr
    have hmem := List.mem_of_mem_take hr
    exact ⟨(List.mem_filter.mp hmem).2, (List.mem_filter.mp hmem).1⟩
  · intro store cur
    simp [getSimilarCases, List.length_take]
  · intro store cur hmem hrep
    have hcur : cur ∈ store.filter
        (fun r => r.institution == cur.institution && r.hasReport) := by
      refine List.mem_filter.mpr ⟨hmem, ?_⟩
      simp [hrep]
    by_cases hl : (store.filter
        (fun r => r.institution == cur.institution && r.hasReport)).length ≤ 50
    · left
      unfold getSimilarCases
      rw [List.take_of_length_le hl]
      exact hcur
    · right
      simp only [getSimilarCases, List.length_take]
      omega

/-- C7 amended witness: instantiated at the one-recording store. -/
theorem c7_amended_population_witness :
    c7Row ∈ ([c7Row] : List RecordingRow) ∧ c7Row.hasReport = true ∧
    (c7Row ∈ getSimilarCases [c7Row] c7Row ∨ (getSimilarCases [c7Row] c7Row).length = 50) :=
  ⟨by decide, rfl, c7_amended_population.2.2 [c7Row] c7Row (by decide) rfl⟩

/-- C5: the statistical-anomaly analysis emits nothing when fewer than five
peer cases or fewer than five peer scores are available; any emitted
indicator has z-score above 2, deviationScore equal to the z-score,
confidence equal to min of 0.5 plus 0.15 per z unit above 2 and 0.95, and
a sample of at least five scores; five equal peer scores (zero standard
deviation) emit nothing; and for peer scores 70, 72, 68, 71, 69 with
current score 50 an indicator is emitted with deviationScore 20 divided by
the square root of 2 (between 14.1 and 14.15, the population-formula
value) and confidence clamped at 0.95. -/
theorem c5_statistical_anomaly :
    (∀ (cur : ℝ) (cs : List PeerCase), cs.length < 5 →
       analyzeStatisticalAnomaly cur cs = none) ∧
    (∀ (cur : ℝ) (cs : List PeerCase), (peerScores cs).length < 5 →
       analyzeStatisticalAnomaly cur cs = none) ∧
    (∀ (cur : ℝ) (cs : List PeerCase) (ind : BiasIndicator),
       analyzeStatisticalAnomaly cur cs = some ind →
         ind.deviationScore = zScoreOf cur (peerScores cs) ∧
         2 < ind.deviationScore ∧
         ind.confidence = min (0.5 + (ind.deviationScore - 2) * 0.15) 0.95 ∧
         5 ≤ ind.sampleSize) ∧
    analyzeStatisticalAnomaly 50 c5PeersEqual = none ∧
    (∃ ind, analyzeStatisticalAnomaly 50 c5Peers = some ind ∧
       ind.deviationScore = 20 / Real.sqrt 2 ∧
       14.1 < ind.deviationScore ∧ ind.deviationScore < 14.15 ∧
       ind.confidence = 0.95) := by
  have hsqrt2_pos : (0:ℝ) < Real.sqrt 2 := Real.sqrt_pos.mpr (by norm_num)
  have hub : Real.sqrt 2 < 1.415 := by
    rw [Real.sqrt_lt' (by norm_num : (0:ℝ) < 1.415)]
    norm_num
  have hlb : (1.414:ℝ) < Real.sqrt 2 := by
    rw [Real.lt_sqrt (by norm_num : (0:ℝ) ≤ 1.414)]
    norm_num
  have hz1 : (14.1:ℝ) < 20 / Real.sqrt 2 := by
    rw [lt_div_iff₀ hsqrt2_pos]
    nlinarith [hub]
  have hz2 : (20:ℝ) / Real.sqrt 2 < 14.15 := by
    rw [div_lt_iff₀ hsqrt2_pos]
    nlinarith [hlb]
  refine ⟨?_, ?_, ?_, ?_, ?_⟩
  · intro cur cs h
    simp only [analyzeStatisticalAnomaly]
    rw [if_pos h]
  · intro cur cs h
    by_cases h5 : cs.length < 5
    · simp only [analyzeStatisticalAnomaly]
      rw [if_pos h5]
    · simp only [analyzeStatisticalAnomaly]
      rw [if_neg h5, if_pos h]
  · intro cur cs ind h
    simp only [analyzeStatisticalAnomaly] at h
    by_cases h5 : cs.length < 5
    · rw [if_pos h5] at h
      exact absurd h (by simp)
    · rw [if_neg h5] at h
      by_cases h5s : (peerScores cs).length < 5
      · rw [if_pos h5s] at h
        exact absurd h (by simp)
      · rw [if_neg h5s] at h
        by_cases hz : zScoreOf cur (peerScores cs) > 2
        · rw [if_pos hz] at h
          cases h
          exact ⟨rfl, hz, rfl, Nat.le_of_not_lt h5s⟩
        · rw [if_neg hz] at h
          exact absurd h (by simp)
  · have hsc : peerScores c5PeersEqual = c5ScoresEqual := rfl
    have hm : popMean c5ScoresEqual = 70 := by
      norm_num [popMean, c5ScoresEqual]
    have hsd : popStdDev c5ScoresEqual = 0 := by
      rw [popStdDev]
      rw [show ((c5ScoresEqual.map (fun s => (s - popMean c5ScoresEqual) ^ 2)).sum /
          (c5ScoresEqual.length : ℝ)) = 0 by rw [hm]; norm_num [c5ScoresEqual]]
      exact Real.sqrt_zero
    have hzv : zScoreOf 50 c5ScoresEqual = 0 := by
      rw [zScoreOf, if_neg]
      rw [hsd]
      exact lt_irrefl 0
    have hlen : c5PeersEqual.length = 5 := rfl
    have hlenS : c5ScoresEqual.length = 5 := rfl
    simp only [analyzeStatisticalAnomaly, hsc, hlen, hlenS, hzv]
    rw [if_neg (by norm_num), if_neg (by norm_num), if_neg (by norm_num)]
  · have hsc : peerScores c5Peers = c5Scores := rfl
    have hm : popMean c5Scores = 70 := by
      norm_num [popMean, c5Scores]
    have hsd : popStdDev c5Scores = Real.sqrt 2 := by
      rw [popStdDev]
      rw [show ((c5Scores.map (fun s => (s - popMean c5Scores) ^ 2)).sum /
          (c5Scores.length : ℝ)) = 2 by rw [hm]; norm_num [c5Scores]]
    have habs : |(50:ℝ) - 70| = 20 := by
      rw [abs_sub_comm, abs_of_nonneg (by norm_num : (0:ℝ) ≤ 70 - 50)]
      norm_num
    have hzv : zScoreOf 50 c5Scores = 20 / Real.sqrt 2 := by
      rw [zScoreOf, if_pos (by rw [hsd]; exact hsqrt2_pos), hm, habs, hsd]
    have hlen : c5Peers.length = 5 := rfl
    have hlenS : c5Scores.length = 5 := rfl
    have hres : analyzeStatisticalAnomaly 50 c5Peers = some
        { confidence := min (0.5 + (20 / Real.sqrt 2 - 2) * 0.15) 0.95,
          deviationScore := 20 / Real.sqrt 2,
          currentScore := 50,
          averageScore := jsRound (popMean c5Scores),
          standardDeviation := jsRound (popStdDev c5Scores),
          sampleSize := 5 } := by
      simp only [analyzeStatisticalAnomaly, hsc, hlen, hlenS, hzv]
      rw [if_neg (by norm_num), if_neg (by norm_num), if_pos (by nlinarith [hz1])]
    refine ⟨_, hres, rfl, hz1, hz2, ?_⟩
    exact min_eq_right (by nlinarith [hz1])

/-- C5 witness: three peer cases fall below the five-case threshold and the
analysis emits nothing. -/
theorem c5_statistical_anomaly_witness :
    c5ThreePeers.length < 5 ∧ analyzeStatisticalAnomaly 50 c5ThreePeers = none :=
  ⟨by decide, c5_statistical_anomaly.1 50 c5ThreePeers (by decide)⟩

end SignTrace
